import Mathlib

/-!
# Verification of the Libra Epoch Manager and Gossip Discovery protocol logic

This file gives a shallow embedding of the logic of
`consensus/src/epoch_manager.rs` (the `EpochManager` actor: epoch gating,
event verification and dispatch, epoch retrieval, epoch transition, processor
lifecycle) and of the Gossip Discovery note-merging protocol, and proves the
specification claims about them.

Modelling conventions:
* Machine integers (`u64` epochs and rounds) are modelled as `Nat`; where u64
  range behaviour matters it is made explicit against `U64MAX`.
* External collaborators (the round/recovery manager internals, the validator
  verifier, the storage backend, the state computer, the network sender) are
  modelled as abstract function-valued fields or as emitted effects; the
  epoch-manager code under verification is translated branch by branch.
* Rust `Result` becomes `EMResult`/`Except`; an `expect`/`unreachable!` in the
  source becomes the explicit `panicked` outcome.
* Observable actions (network sends, state-sync calls, dispatch into the
  active processor) are recorded as an explicit effect list.
-/

namespace Libra

/-- Largest value of the `u64` range, `2 ^ 64 - 1`. -/
def U64MAX : Nat := 2 ^ 64 - 1

/-- A signed ledger info, as produced by verifying an `EpochChangeProof`.
Only its identity matters here; we keep the epoch it commits to. -/
structure LedgerInfo where
  epoch : Nat
  deriving DecidableEq, Repr

/-- Model of `EpochChangeProof` as received on the wire.  `firstEpoch` is what
`EpochChangeProof::epoch()` returns: the epoch of the first ledger info, or an
error (`none`) when the proof is empty. -/
structure ProofMsg where
  firstEpoch : Option Nat
  tag : Nat
  deriving DecidableEq, Repr

/-- `UnverifiedEvent` from `round_manager.rs`: the three gossip-able consensus
events before signature verification, each carrying its epoch. -/
inductive UnverifiedEvent where
  | proposalMsg (epoch payload : Nat)
  | voteMsg (epoch payload : Nat)
  | syncInfo (epoch payload : Nat)
  deriving DecidableEq, Repr

/-- `UnverifiedEvent::epoch()`. -/
def UnverifiedEvent.epoch : UnverifiedEvent → Nat
  | .proposalMsg e _ => e
  | .voteMsg e _ => e
  | .syncInfo e _ => e

/-- `VerifiedEvent` from `round_manager.rs`: same three variants, after
signature verification. -/
inductive VerifiedEvent where
  | proposalMsg (epoch payload : Nat)
  | voteMsg (epoch payload : Nat)
  | syncInfo (epoch payload : Nat)
  deriving DecidableEq, Repr

/-- The payload-preserving map from an unverified event to its verified form,
performed by `UnverifiedEvent::verify` on success. -/
def UnverifiedEvent.toVerified : UnverifiedEvent → VerifiedEvent
  | .proposalMsg e p => .proposalMsg e p
  | .voteMsg e p => .voteMsg e p
  | .syncInfo e p => .syncInfo e p

/-- Model of `ValidatorVerifier` (external collaborator): a decision procedure
for event signatures and one for epoch-change proofs.  `verifyProof` returns
the verified ledger info on success, as `EpochChangeProof::verify` does. -/
structure ValidatorVerifier where
  verifyEvent : UnverifiedEvent → Bool
  verifyProof : ProofMsg → Option LedgerInfo

/-- `EpochState { epoch, verifier }`, immutable for the life of one epoch. -/
structure EpochState where
  epoch : Nat
  verifier : ValidatorVerifier

/-- Error taxonomy of the epoch manager paths, one constructor per distinct
`bail!` / `ensure!` / `anyhow!` / error-propagation site. -/
inductive EMError where
  | invalidMessage
  | sameEpochInDifferent
  | emptyProof
  | invalidProof
  | retrievalBeyondLocal
  | unexpectedMessage
  | unexpectedDuringStartup
  | handlerError (code : Nat)
  | notStarted
  deriving DecidableEq, Repr

/-- Outcome of an epoch-manager entry point: `ok`, a propagated `anyhow`
error, or a panic (`expect` / `unreachable!` in the source). -/
inductive EMResult (α : Type) where
  | ok (a : α)
  | err (e : EMError)
  | panicked
  deriving DecidableEq, Repr

/-- Map over the `ok` payload, preserving errors and panics. -/
def EMResult.map {α β : Type} (f : α → β) : EMResult α → EMResult β
  | .ok a => .ok (f a)
  | .err e => .err e
  | .panicked => .panicked

/-- Coerce an external handler result into an epoch-manager outcome. -/
def toResult : Except EMError Unit → EMResult Unit
  | .ok _ => .ok ()
  | .error e => .err e

/-- The abstract handler interface of a `RoundManager` (external collaborator,
`round_manager.rs` is not part of the verified slice): each entry point is a
function from the event payload to success or an error. -/
structure RMHandlers where
  processProposalMsg : Nat → Except EMError Unit
  processVote : Nat → Except EMError Unit
  processSyncInfoMsg : Nat → Nat → Except EMError Unit
  processBlockRetrieval : Nat → Except EMError Unit
  processLocalTimeout : Nat → Except EMError Unit

/-- A Normal processor: a `RoundManager` holding its `EpochState` (stored
verbatim by `RoundManager::new`) and its abstract handlers. -/
structure RoundManager where
  epochState : EpochState
  handlers : RMHandlers

/-- `RecoveryData`: the opaque payload a successful recovery returns; its
contents (root block, pending blocks, certs, last vote) are only threaded
through to `start_round_manager`, so an abstract tag suffices. -/
structure RecoveryData where
  tag : Nat
  deriving DecidableEq, Repr

/-- A Recovery processor: a `RecoveryManager` holding its `EpochState` and
abstract proposal/vote handlers which on success return `RecoveryData`. -/
structure RecoveryManager where
  epochState : EpochState
  recProcessProposalMsg : Nat → Except EMError RecoveryData
  recProcessVote : Nat → Except EMError RecoveryData

/-- `RoundProcessor`: the tagged union held by the epoch manager. -/
inductive RoundProcessor where
  | recovery (p : RecoveryManager)
  | normal (p : RoundManager)

/-- The `EpochManager` state relevant to the verified entry points: the
optional active processor, plus the abstract `RoundManager` internals that
`start_round_manager` builds from a `RecoveryData` (block store, proposal
generator, round state, proposer election, safety rules — all external). -/
structure EpochManager where
  processor : Option RoundProcessor
  roundHandlers : RecoveryData → RMHandlers

/-- Observable actions of the epoch manager: network sends, the state-sync
call, and dispatch of a verified event into the active processor.
`sendEpochChangeProof peer lo hi` records that the proof for the epoch range
`[lo, hi)` was fetched from storage and sent to `peer` (the storage contract
that the returned proof covers the requested range is external). -/
inductive Effect where
  | sendEpochChangeProof (peer lo hi : Nat)
  | sendEpochRetrievalRequest (peer lo hi : Nat)
  | syncTo (li : LedgerInfo)
  | forwardToProcessor (e : VerifiedEvent)
  deriving DecidableEq, Repr

/-- Result of one entry point: the successor state, the effects performed in
order, and the outcome. -/
structure Step (α : Type) where
  state : EpochManager
  effects : List Effect
  result : EMResult α

/-- `EpochManager::epoch_state`, without the panic: the epoch state of the
active processor, if any. -/
def EpochManager.epochStateOpt (m : EpochManager) : Option EpochState :=
  match m.processor with
  | some (.normal p) => some p.epochState
  | some (.recovery p) => some p.epochState
  | none => none

/-- `EpochManager::epoch`, without the panic. -/
def EpochManager.epochOpt (m : EpochManager) : Option Nat :=
  m.epochStateOpt.map (·.epoch)

/-- `process_epoch_retrieval` (lines 179–194): fetch the epoch change proof
for `[startEpoch, endEpoch)` from storage and send it to `peer`.  Storage
lookup and transport are external collaborators, modelled as the effect. -/
def EpochManager.processEpochRetrieval (m : EpochManager)
    (startEpoch endEpoch peer : Nat) : Step Unit :=
  ⟨m, [.sendEpochChangeProof peer startEpoch endEpoch], .ok ()⟩

/-- `process_different_epoch` (lines 196–229): help a lower-epoch peer with a
proof, ask a higher-epoch peer for a retrieval, and reject the equal case.
`self.epoch()` panics when no processor is active. -/
def EpochManager.processDifferentEpoch (m : EpochManager)
    (differentEpoch peer : Nat) : Step Unit :=
  match m.epochOpt with
  | none => ⟨m, [], .panicked⟩
  | some eLoc =>
    if differentEpoch < eLoc then
      m.processEpochRetrieval differentEpoch eLoc peer
    else if eLoc < differentEpoch then
      ⟨m, [.sendEpochRetrievalRequest peer eLoc differentEpoch], .ok ()⟩
    else
      ⟨m, [], .err .sameEpochInDifferent⟩

/-- `start_new_epoch` (lines 231–249): verify the proof against the current
epoch state, then drive the state computer to `sync_to` the resulting ledger
info.  No epoch-manager state changes here: the state computer notifies
reconfiguration through another channel. -/
def EpochManager.startNewEpoch (m : EpochManager) (proof : ProofMsg) :
    Step Unit :=
  match m.epochStateOpt with
  | none => ⟨m, [], .panicked⟩
  | some es =>
    match es.verifier.verifyProof proof with
    | none => ⟨m, [], .err .invalidProof⟩
    | some li => ⟨m, [.syncTo li], .ok ()⟩

/-- `start_round_manager` (lines 251–331), state effect only: first drop the
current processor (`self.processor = None`), then build the new
`RoundManager` from the recovery data and the given epoch state and install
it.  The construction ordering is modelled separately by
`startRoundManagerTrace`. -/
def EpochManager.startRoundManager (m : EpochManager) (rd : RecoveryData)
    (es : EpochState) : EpochManager :=
  let m1 : EpochManager := { m with processor := none }
  { m1 with
    processor := some (.normal { epochState := es, handlers := m.roundHandlers rd }) }

/-- The consensus wire messages dispatched by `process_epoch`
(lines 392–426). -/
inductive ConsensusMsg where
  | proposalMsg (epoch payload : Nat)
  | voteMsg (epoch payload : Nat)
  | syncInfo (epoch payload : Nat)
  | epochChangeProof (proof : ProofMsg)
  | epochRetrievalRequest (startEpoch endEpoch : Nat)
  | blockRetrievalRequest (payload : Nat)
  | blockRetrievalResponse (payload : Nat)
  deriving DecidableEq, Repr

/-- The `msg.into()` conversion for the three event-kind messages. -/
def ConsensusMsg.asEvent : ConsensusMsg → Option UnverifiedEvent
  | .proposalMsg e p => some (.proposalMsg e p)
  | .voteMsg e p => some (.voteMsg e p)
  | .syncInfo e p => some (.syncInfo e p)
  | _ => none

/-- The first arm of `process_epoch`: gate an event-kind message on its epoch.
Equal epoch admits the event for verification and dispatch; a different epoch
goes to `process_different_epoch` and admits nothing. -/
def EpochManager.gateEvent (m : EpochManager) (event : UnverifiedEvent)
    (peer : Nat) : Step (Option UnverifiedEvent) :=
  match m.epochOpt with
  | none => ⟨m, [], .panicked⟩
  | some eLoc =>
    if event.epoch = eLoc then
      ⟨m, [], .ok (some event)⟩
    else
      let s := m.processDifferentEpoch event.epoch peer
      ⟨s.state, s.effects, s.result.map fun _ => none⟩

/-- `process_epoch` (lines 392–426), branch by branch over the message. -/
def EpochManager.processEpoch (m : EpochManager) (peer : Nat)
    (msg : ConsensusMsg) : Step (Option UnverifiedEvent) :=
  match msg with
  | .proposalMsg e p => m.gateEvent (.proposalMsg e p) peer
  | .voteMsg e p => m.gateEvent (.voteMsg e p) peer
  | .syncInfo e p => m.gateEvent (.syncInfo e p) peer
  | .epochChangeProof proof =>
    match proof.firstEpoch with
    | none => ⟨m, [], .err .emptyProof⟩
    | some msgEpoch =>
      match m.epochOpt with
      | none => ⟨m, [], .panicked⟩
      | some eLoc =>
        if msgEpoch = eLoc then
          let s := m.startNewEpoch proof
          ⟨s.state, s.effects, s.result.map fun _ => none⟩
        else
          let s := m.processDifferentEpoch msgEpoch peer
          ⟨s.state, s.effects, s.result.map fun _ => none⟩
  | .epochRetrievalRequest startE endE =>
    match m.epochOpt with
    | none => ⟨m, [], .panicked⟩
    | some eLoc =>
      if endE ≤ eLoc then
        let s := m.processEpochRetrieval startE endE peer
        ⟨s.state, s.effects, s.result.map fun _ => none⟩
      else
        ⟨m, [], .err .retrievalBeyondLocal⟩
  | .blockRetrievalRequest _ => ⟨m, [], .err .unexpectedMessage⟩
  | .blockRetrievalResponse _ => ⟨m, [], .err .unexpectedMessage⟩

/-- `process_event` (lines 428–453): dispatch a verified event into the
active processor.  In Recovery, only proposals and votes are handled; a
success promotes the manager to Normal at the recovery manager's own epoch
state via `start_round_manager`; the `_` arm errors without touching the
processor.  In Normal, the three events go to the matching handler. -/
def EpochManager.processEvent (m : EpochManager) (peer : Nat)
    (event : VerifiedEvent) : Step Unit :=
  match m.processor with
  | none => ⟨m, [], .panicked⟩
  | some (.recovery p) =>
    match event with
    | .syncInfo _ _ => ⟨m, [], .err .unexpectedDuringStartup⟩
    | .proposalMsg e pl =>
      match p.recProcessProposalMsg pl with
      | .error er => ⟨m, [.forwardToProcessor (.proposalMsg e pl)], .err er⟩
      | .ok rd =>
        ⟨m.startRoundManager rd p.epochState,
          [.forwardToProcessor (.proposalMsg e pl)], .ok ()⟩
    | .voteMsg e pl =>
      match p.recProcessVote pl with
      | .error er => ⟨m, [.forwardToProcessor (.voteMsg e pl)], .err er⟩
      | .ok rd =>
        ⟨m.startRoundManager rd p.epochState,
          [.forwardToProcessor (.voteMsg e pl)], .ok ()⟩
  | some (.normal p) =>
    match event with
    | .proposalMsg e pl =>
      ⟨m, [.forwardToProcessor (.proposalMsg e pl)],
        toResult (p.handlers.processProposalMsg pl)⟩
    | .voteMsg e pl =>
      ⟨m, [.forwardToProcessor (.voteMsg e pl)],
        toResult (p.handlers.processVote pl)⟩
    | .syncInfo e pl =>
      ⟨m, [.forwardToProcessor (.syncInfo e pl)],
        toResult (p.handlers.processSyncInfoMsg pl peer)⟩

/-- `process_message` (lines 378–390): epoch-gate, then verify the admitted
event against the current verifier, then dispatch; a verification failure
propagates as an error before `process_event` runs. -/
def EpochManager.processMessage (m : EpochManager) (peer : Nat)
    (msg : ConsensusMsg) : Step Unit :=
  let s := m.processEpoch peer msg
  match s.result with
  | .panicked => ⟨s.state, s.effects, .panicked⟩
  | .err e => ⟨s.state, s.effects, .err e⟩
  | .ok none => ⟨s.state, s.effects, .ok ()⟩
  | .ok (some event) =>
    match s.state.epochStateOpt with
    | none => ⟨s.state, s.effects, .panicked⟩
    | some es =>
      if es.verifier.verifyEvent event then
        let s2 := s.state.processEvent peer event.toVerified
        ⟨s2.state, s.effects ++ s2.effects, s2.result⟩
      else
        ⟨s.state, s.effects, .err .invalidMessage⟩

/-- `process_block_retrieval` (lines 461–469): Normal dispatches to the round
manager, Recovery bails with an explicit error, and the `processor_mut`
`expect` panics when no processor is active. -/
def EpochManager.processBlockRetrieval (m : EpochManager) (request : Nat) :
    Step Unit :=
  match m.processor with
  | none => ⟨m, [], .panicked⟩
  | some (.normal p) => ⟨m, [], toResult (p.handlers.processBlockRetrieval request)⟩
  | some (.recovery _) => ⟨m, [], .err .notStarted⟩

/-- `process_local_timeout` (lines 471–476): Normal dispatches to the round
manager; Recovery hits `unreachable!` and no processor hits the
`processor_mut` `expect` — both panics. -/
def EpochManager.processLocalTimeout (m : EpochManager) (round : Nat) :
    Step Unit :=
  match m.processor with
  | none => ⟨m, [], .panicked⟩
  | some (.normal p) => ⟨m, [], toResult (p.handlers.processLocalTimeout round)⟩
  | some (.recovery _) => ⟨m, [], .panicked⟩

/-! ## Processor lifecycle ordering

The claims about processor replacement are about the order of primitive
actions inside `start_round_manager` and `start_recovery_manager`, so those
two bodies are embedded as explicit action traces, read off the source line
by line.  Rust assignment semantics: in `self.processor = Some(v)` the
right-hand side `v` is fully constructed first, then the old value of the
field is dropped, then the new value is moved in. -/

/-- The two processor kinds. -/
inductive ProcessorKind where
  | normal
  | recovery
  deriving DecidableEq, Repr

/-- Primitive lifecycle actions of a processor-replacing function. -/
inductive LifecycleAction where
  | destroyOld
  | create (k : ProcessorKind)
  | install (k : ProcessorKind)
  deriving DecidableEq, Repr

/-- Action trace of `start_round_manager` (lines 251–331): the first
statement is `self.processor = None` (dropping the old processor and its
safety-rules client), then the new `RoundManager` is constructed, then
installed at `self.processor = Some(RoundProcessor::Normal(processor))`. -/
def startRoundManagerTrace : List LifecycleAction :=
  [.destroyOld, .create .normal, .install .normal]

/-- Action trace of `start_recovery_manager` (lines 337–356): the body has no
`self.processor = None`; the single statement
`self.processor = Some(RoundProcessor::Recovery(RecoveryManager::new(...)))`
constructs the new `RecoveryManager` first, then drops the old processor as
part of the assignment, then installs the new one. -/
def startRecoveryManagerTrace : List LifecycleAction :=
  [.create .recovery, .destroyOld, .install .recovery]

/-- Whether the old processor is destroyed strictly before the successor of
kind `k` is created in the trace `tr`. -/
def destroyBeforeCreate (tr : List LifecycleAction) (k : ProcessorKind) : Bool :=
  tr.indexOf .destroyOld < tr.indexOf (.create k)

/-! ## Gossip Discovery

The Discovery implementation is not part of the source slice (only its test
file `network/src/protocols/discovery/test.rs` is), so the note-merging logic
is modelled from the spec, §4.6 and §8–§9, and checked against the behaviour
the tests pin down. -/

/-- A Discovery `Note`: a signed address advertisement.  The signature is not
modelled: the handler below receives only well-formed (signature-valid)
notes, as in the tests.  Addresses and dns names are abstract tokens. -/
structure DNote where
  peerId : Nat
  addrs : List Nat
  dnsName : Nat
  epoch : Nat
  deriving DecidableEq, Repr

/-- Association-list lookup of the stored note for a peer. -/
def lookupNote : List (Nat × DNote) → Nat → Option DNote
  | [], _ => none
  | (k, v) :: rest, p => if k = p then some v else lookupNote rest p

/-- Replace the stored note for `p` (first occurrence), or append if new. -/
def updateNote : List (Nat × DNote) → Nat → DNote → List (Nat × DNote)
  | [], p, v => [(p, v)]
  | (k, w) :: rest, p, v =>
    if k = p then (k, v) :: rest else (k, w) :: updateNote rest p v

/-- Modelled from the spec: the local state of the Discovery actor (§4.6) —
the self id, the mapping `peer_id → Note` (initialized with the self-note),
and the wall clock in microseconds as read when a message is handled. -/
structure DiscoveryState where
  selfId : Nat
  notes : List (Nat × DNote)
  clock : Nat
  deriving DecidableEq, Repr

/-- Modelled from the spec: the self-note bump epoch (§4.6 step 2 with the
§8 S3 / §9 u64 wrap policy).  The new epoch is
`max(received_epoch, wall_clock_micros) + 1`, saturated at `u64::MAX - 1` so
that the local self-epoch always remains strictly below `u64::MAX`
(the spec offers saturation at `MAX - 1` as the wrap policy; the exact rule
is an open question in §9, and saturation is the reading consistent with the
spec's global monotonicity invariant). -/
def bumpEpoch (receivedEpoch clock : Nat) : Nat :=
  min (max receivedEpoch clock + 1) (U64MAX - 1)

/-- Modelled from the spec: handling of one inbound well-formed note
(§4.6 steps 2–4).  Returns the successor state and whether the peer-address
mapping changed (step 4 emits `UpdateAddresses` exactly when some peer's
address vector changed).
* A self-note with a strictly greater epoch bumps the stored self-note to
  `bumpEpoch` while retaining the locally configured addresses (so the
  address mapping does not change).
* Any other note replaces the stored one exactly when its epoch is strictly
  greater, or the peer is new; otherwise it is discarded. -/
def handleNote (s : DiscoveryState) (n : DNote) : DiscoveryState × Bool :=
  if n.peerId = s.selfId then
    match lookupNote s.notes s.selfId with
    | some sn =>
      if sn.epoch < n.epoch then
        ({ s with
            notes := updateNote s.notes s.selfId
              { sn with epoch := bumpEpoch n.epoch s.clock } }, false)
      else (s, false)
    | none => (s, false)
  else
    match lookupNote s.notes n.peerId with
    | some stored =>
      if stored.epoch < n.epoch then
        ({ s with notes := updateNote s.notes n.peerId n },
          stored.addrs != n.addrs)
      else (s, false)
    | none => ({ s with notes := updateNote s.notes n.peerId n }, true)

/-- Modelled from the spec: handling of an inbound `DiscoveryMsg` batch; the
second component says whether an `UpdateAddresses` is emitted (it is, exactly
when some note changed a peer-address mapping). -/
def handleMsg (s : DiscoveryState) (msg : List DNote) : DiscoveryState × Bool :=
  msg.foldl (fun acc n =>
    let r := handleNote acc.1 n
    (r.1, acc.2 || r.2)) (s, false)

/-- The note for self as it would appear in the next outbound
`DiscoveryMsg` (the outbound message carries all stored notes). -/
def outboundSelfNote (s : DiscoveryState) : Option DNote :=
  lookupNote s.notes s.selfId

/-- The state reached after handling a sequence of inbound notes in order
(the state component of repeated `handleNote`). -/
def runNotes (s : DiscoveryState) (ns : List DNote) : DiscoveryState :=
  ns.foldl (fun st n => (handleNote st n).1) s

/-- The Discovery well-formedness invariant on the self entry: the stored
self-note epoch is strictly below `u64::MAX` (spec §8 S3); initially it is a
wall-clock microsecond timestamp, far below the bound. -/
def selfEpochOk (s : DiscoveryState) : Bool :=
  match lookupNote s.notes s.selfId with
  | some sn => decide (sn.epoch < U64MAX)
  | none => true

/-! ## Concrete instances used by the witnesses and counterexamples -/

/-- Round-manager handlers that always succeed. -/
def okHandlers : RMHandlers :=
  ⟨fun _ => .ok (), fun _ => .ok (), fun _ _ => .ok (),
    fun _ => .ok (), fun _ => .ok ()⟩

/-- A verifier accepting every event and every proof (yielding the ledger
info committing to epoch 6). -/
def acceptVerifier : ValidatorVerifier :=
  ⟨fun _ => true, fun _ => some ⟨6⟩⟩

/-- A verifier rejecting every event and every proof. -/
def rejectVerifier : ValidatorVerifier :=
  ⟨fun _ => false, fun _ => none⟩

/-- An epoch state at epoch 5 with the accepting verifier. -/
def epoch5State : EpochState := ⟨5, acceptVerifier⟩

/-- An epoch manager with a Normal processor at epoch 5. -/
def normalEM : EpochManager :=
  ⟨some (.normal ⟨epoch5State, okHandlers⟩), fun _ => okHandlers⟩

/-- An epoch manager with a Normal processor at epoch 5 whose verifier
rejects every event. -/
def rejectEM : EpochManager :=
  ⟨some (.normal ⟨⟨5, rejectVerifier⟩, okHandlers⟩), fun _ => okHandlers⟩

/-- An epoch manager with a Recovery processor at epoch 5 whose proposal
handler fails and whose vote handler recovers successfully. -/
def recoveryEM : EpochManager :=
  ⟨some (.recovery ⟨epoch5State, fun _ => .error (.handlerError 9),
    fun _ => .ok ⟨1⟩⟩), fun _ => okHandlers⟩

/-- An epoch manager that has not been started yet. -/
def idleEM : EpochManager := ⟨none, fun _ => okHandlers⟩

/-- A sample epoch change proof whose first epoch is 5. -/
def sampleProof : ProofMsg := ⟨some 5, 0⟩

/-- A Discovery state: self id 0 with address 9090 at epoch 5, clock 10. -/
def ds0 : DiscoveryState := ⟨0, [(0, ⟨0, [9090], 0, 5⟩)], 10⟩

/-! ## Helper lemmas -/

theorem epochOpt_of_epochStateOpt {m : EpochManager} {es : EpochState}
    (h : m.epochStateOpt = some es) : m.epochOpt = some es.epoch := by
  simp [EpochManager.epochOpt, h]

theorem processEpoch_of_asEvent {m : EpochManager} {peer : Nat}
    {msg : ConsensusMsg} {ev : UnverifiedEvent} (h : msg.asEvent = some ev) :
    m.processEpoch peer msg = m.gateEvent ev peer := by
  cases msg <;> simp [ConsensusMsg.asEvent] at h <;> subst h <;> rfl

theorem gateEvent_eq {m : EpochManager} {es : EpochState}
    {ev : UnverifiedEvent} {peer : Nat} (h : m.epochStateOpt = some es)
    (he : ev.epoch = es.epoch) :
    m.gateEvent ev peer = ⟨m, [], .ok (some ev)⟩ := by
  simp [EpochManager.gateEvent, epochOpt_of_epochStateOpt h, he]

theorem gateEvent_lt {m : EpochManager} {es : EpochState}
    {ev : UnverifiedEvent} {peer : Nat} (h : m.epochStateOpt = some es)
    (hlt : ev.epoch < es.epoch) :
    m.gateEvent ev peer =
      ⟨m, [.sendEpochChangeProof peer ev.epoch es.epoch], .ok none⟩ := by
  simp [EpochManager.gateEvent, epochOpt_of_epochStateOpt h,
    EpochManager.processDifferentEpoch, EpochManager.processEpochRetrieval,
    Nat.ne_of_lt hlt, hlt, EMResult.map]

theorem gateEvent_gt {m : EpochManager} {es : EpochState}
    {ev : UnverifiedEvent} {peer : Nat} (h : m.epochStateOpt = some es)
    (hgt : es.epoch < ev.epoch) :
    m.gateEvent ev peer =
      ⟨m, [.sendEpochRetrievalRequest peer es.epoch ev.epoch], .ok none⟩ := by
  have hne : ¬ ev.epoch = es.epoch := Nat.ne_of_gt hgt
  have hnlt : ¬ ev.epoch < es.epoch := Nat.not_lt_of_gt hgt
  simp [EpochManager.gateEvent, epochOpt_of_epochStateOpt h,
    EpochManager.processDifferentEpoch, hne, hnlt, hgt, EMResult.map]

theorem processEvent_effects {m : EpochManager} {peer : Nat}
    {v : VerifiedEvent} {e : Effect}
    (h : e ∈ (m.processEvent peer v).effects) : e = .forwardToProcessor v := by
  unfold EpochManager.processEvent at h
  split at h
  all_goals try split at h
  all_goals try split at h
  all_goals simp_all

/-! ## Claims -/

/-- Claim C2: while a Recovery processor is active, a verified `ProposalMsg`
or `VoteMsg` is the only kind of event `process_event` processes — the one
other verified event kind, `SyncInfo`, fails with the
`UnexpectedDuringStartup` error and changes nothing — and when processing
succeeds with `RecoveryData`, the Recovery processor is replaced by a Normal
(round manager) processor built at the Recovery processor's own epoch state
(same epoch). -/
theorem c2_recovery_processes_only_proposal_vote :
    ∀ (m : EpochManager) (p : RecoveryManager) (peer ep pl : Nat)
      (rd : RecoveryData),
      m.processor = some (.recovery p) →
      (m.processEvent peer (.syncInfo ep pl) =
        ⟨m, [], .err .unexpectedDuringStartup⟩)
      ∧ (p.recProcessProposalMsg pl = .ok rd →
          m.processEvent peer (.proposalMsg ep pl) =
            ⟨{ m with
                processor := some (.normal ⟨p.epochState, m.roundHandlers rd⟩) },
              [.forwardToProcessor (.proposalMsg ep pl)], .ok ()⟩)
      ∧ (p.recProcessVote pl = .ok rd →
          m.processEvent peer (.voteMsg ep pl) =
            ⟨{ m with
                processor := some (.normal ⟨p.epochState, m.roundHandlers rd⟩) },
              [.forwardToProcessor (.voteMsg ep pl)], .ok ()⟩) := by
  intro m p peer ep pl rd hproc
  refine ⟨?_, ?_, ?_⟩
  · rw [EpochManager.processEvent, hproc]
  · intro hok
    rw [EpochManager.processEvent, hproc]
    simp only [hok]
    rfl
  · intro hok
    rw [EpochManager.processEvent, hproc]
    simp only [hok]
    rfl

/-- Witness for C2 at a concrete Recovery manager: `SyncInfo` errors, and a
successful vote promotes to a Normal processor at the same epoch state. -/
theorem c2_recovery_processes_only_proposal_vote_w :
    (recoveryEM.processEvent 7 (.syncInfo 5 0) =
      ⟨recoveryEM, [], .err .unexpectedDuringStartup⟩)
    ∧ (recoveryEM.processEvent 7 (.voteMsg 5 0) =
        ⟨{ recoveryEM with
            processor := some (.normal ⟨epoch5State, okHandlers⟩) },
          [.forwardToProcessor (.voteMsg 5 0)], .ok ()⟩) :=
  ⟨(c2_recovery_processes_only_proposal_vote recoveryEM _ 7 5 0 ⟨1⟩ rfl).1,
    (c2_recovery_processes_only_proposal_vote recoveryEM _ 7 5 0 ⟨1⟩ rfl).2.2 rfl⟩

/-- Claim C10: while a Recovery processor is active, an error from processing
a verified proposal or vote propagates out of `process_event` and the
processor is left unchanged — still the same Recovery processor; promotion
happens only on success. -/
theorem c10_recovery_error_keeps_processor :
    ∀ (m : EpochManager) (p : RecoveryManager) (peer ep pl : Nat)
      (er : EMError),
      m.processor = some (.recovery p) →
      (p.recProcessProposalMsg pl = .error er →
        m.processEvent peer (.proposalMsg ep pl) =
          ⟨m, [.forwardToProcessor (.proposalMsg ep pl)], .err er⟩)
      ∧ (p.recProcessVote pl = .error er →
          m.processEvent peer (.voteMsg ep pl) =
            ⟨m, [.forwardToProcessor (.voteMsg ep pl)], .err er⟩) := by
  intro m p peer ep pl er hproc
  constructor
  · intro herr
    rw [EpochManager.processEvent, hproc]
    simp only [herr]
  · intro herr
    rw [EpochManager.processEvent, hproc]
    simp only [herr]

/-- Witness for C10 at a concrete Recovery manager whose proposal handler
fails: the state (hence the processor) is unchanged and the error surfaces. -/
theorem c10_recovery_error_keeps_processor_w :
    recoveryEM.processEvent 7 (.proposalMsg 5 0) =
      ⟨recoveryEM, [.forwardToProcessor (.proposalMsg 5 0)],
        .err (.handlerError 9)⟩ :=
  (c10_recovery_error_keeps_processor recoveryEM _ 7 5 0 _ rfl).1 rfl

/-- Claim C4: an inbound `EpochRetrievalRequest` with `end_epoch` above the
local epoch fails with an error and sends nothing; with
`end_epoch ≤ local epoch` the manager responds to the requesting peer with
the epoch change proof covering `[start_epoch, end_epoch)`. -/
theorem c4_epoch_retrieval_bounds :
    ∀ (m : EpochManager) (es : EpochState) (peer s e : Nat),
      m.epochStateOpt = some es →
      (es.epoch < e →
        m.processMessage peer (.epochRetrievalRequest s e) =
          ⟨m, [], .err .retrievalBeyondLocal⟩)
      ∧ (e ≤ es.epoch →
          m.processMessage peer (.epochRetrievalRequest s e) =
            ⟨m, [.sendEpochChangeProof peer s e], .ok ()⟩) := by
  intro m es peer s e h
  constructor
  · intro hgt
    have hne : ¬ e ≤ es.epoch := Nat.not_le_of_lt hgt
    simp [EpochManager.processMessage, EpochManager.processEpoch,
      epochOpt_of_epochStateOpt h, hne]
  · intro hle
    simp [EpochManager.processMessage, EpochManager.processEpoch,
      epochOpt_of_epochStateOpt h, hle, EpochManager.processEpochRetrieval,
      EMResult.map]

/-- Witness for C4 at epoch 5: `end = 9` is refused with no send; `end = 4`
is answered with the proof for `[2, 4)`. -/
theorem c4_epoch_retrieval_bounds_w :
    (normalEM.processMessage 7 (.epochRetrievalRequest 2 9) =
      ⟨normalEM, [], .err .retrievalBeyondLocal⟩)
    ∧ (normalEM.processMessage 7 (.epochRetrievalRequest 2 4) =
        ⟨normalEM, [.sendEpochChangeProof 7 2 4], .ok ()⟩) :=
  ⟨(c4_epoch_retrieval_bounds normalEM epoch5State 7 2 9 rfl).1 (by decide),
    (c4_epoch_retrieval_bounds normalEM epoch5State 7 2 4 rfl).2 (by decide)⟩

/-- Counterexample to claim C6 as stated: with a Recovery processor active,
`process_local_timeout` panics (`unreachable!` in the source) instead of
failing with a `NotStarted`-class error; and with no processor at all,
`process_block_retrieval` panics in `processor_mut`'s `expect`. -/
theorem c6_counterexample :
    (recoveryEM.processLocalTimeout 3).result = .panicked
    ∧ (recoveryEM.processLocalTimeout 3).result ≠ .err .notStarted
    ∧ (idleEM.processBlockRetrieval 0).result = .panicked := by
  refine ⟨rfl, ?_, rfl⟩
  intro h
  simp [EpochManager.processLocalTimeout, recoveryEM] at h

/-- Claim C6 as amended: when a Normal processor is not active,
`process_block_retrieval` fails with the explicit `NotStarted`-class error
only in the Recovery case; with no processor it panics, and
`process_local_timeout` panics in both non-Normal cases. -/
theorem c6_not_started_guards :
    ∀ (m : EpochManager) (req round : Nat),
      (∀ p, m.processor = some (.recovery p) →
        m.processBlockRetrieval req = ⟨m, [], .err .notStarted⟩)
      ∧ (m.processor = none →
          m.processBlockRetrieval req = ⟨m, [], .panicked⟩)
      ∧ (m.processor = none →
          m.processLocalTimeout round = ⟨m, [], .panicked⟩)
      ∧ (∀ p, m.processor = some (.recovery p) →
          m.processLocalTimeout round = ⟨m, [], .panicked⟩) := by
  intro m req round
  refine ⟨?_, ?_, ?_, ?_⟩
  · intro p hp; rw [EpochManager.processBlockRetrieval, hp]
  · intro hp; rw [EpochManager.processBlockRetrieval, hp]
  · intro hp; rw [EpochManager.processLocalTimeout, hp]
  · intro p hp; rw [EpochManager.processLocalTimeout, hp]

/-- Witness for the amended C6 at concrete managers. -/
theorem c6_not_started_guards_w :
    recoveryEM.processBlockRetrieval 0 = ⟨recoveryEM, [], .err .notStarted⟩
    ∧ idleEM.processLocalTimeout 2 = ⟨idleEM, [], .panicked⟩ :=
  ⟨(c6_not_started_guards recoveryEM 0 2).1 _ rfl,
    (c6_not_started_guards idleEM 0 2).2.2.1 rfl⟩

/-- Counterexample to claim C7 as stated: in `start_recovery_manager` the
successor Recovery processor is created before the old processor is
destroyed (the body has no `self.processor = None`; the old value is dropped
only by the final assignment, after `RecoveryManager::new` has run). -/
theorem c7_counterexample :
    ¬ destroyBeforeCreate startRecoveryManagerTrace .recovery = true := by
  decide

/-- Claim C7 as amended: `start_round_manager` destroys the current
processor (and with it its safety-rules client) before the successor is
created, but `start_recovery_manager` creates the successor first and drops
the old processor only at the installing assignment. -/
theorem c7_lifecycle_order :
    destroyBeforeCreate startRoundManagerTrace .normal = true
    ∧ startRecoveryManagerTrace.indexOf (.create .recovery) <
        startRecoveryManagerTrace.indexOf .destroyOld := by
  decide

/-- The Normal branch of `process_event` always dispatches the verified
event into the round manager, whatever the handler then returns. -/
theorem processEvent_normal_effects {m : EpochManager} {p : RoundManager}
    {peer : Nat} {v : VerifiedEvent}
    (hp : m.processor = some (.normal p)) :
    (m.processEvent peer v).effects = [.forwardToProcessor v] := by
  cases v <;> simp [EpochManager.processEvent, hp]

/-- Claim C1: for an inbound `ProposalMsg`, `VoteMsg` or `SyncInfo` handled
by `process_message`, a lower epoch makes the manager send the peer the
epoch change proof covering `[msg.epoch, local_epoch)` without calling the
processor; a higher epoch makes it send the peer
`EpochRetrievalRequest { start = local_epoch, end = msg.epoch }` without
calling the processor; and the event is forwarded to the active processor
exactly when its epoch equals the local epoch (given the signature
verification that C3 interposes succeeds — the last conjunct shows a
forward happens only at the equal epoch). -/
theorem c1_epoch_gating :
    ∀ (m : EpochManager) (es : EpochState) (peer : Nat) (msg : ConsensusMsg)
      (ev : UnverifiedEvent),
      m.epochStateOpt = some es →
      msg.asEvent = some ev →
      (ev.epoch < es.epoch →
        m.processMessage peer msg =
          ⟨m, [.sendEpochChangeProof peer ev.epoch es.epoch], .ok ()⟩)
      ∧ (es.epoch < ev.epoch →
          m.processMessage peer msg =
            ⟨m, [.sendEpochRetrievalRequest peer es.epoch ev.epoch], .ok ()⟩)
      ∧ (∀ p, m.processor = some (.normal p) → ev.epoch = es.epoch →
          es.verifier.verifyEvent ev = true →
          .forwardToProcessor ev.toVerified ∈
            (m.processMessage peer msg).effects)
      ∧ (∀ e, .forwardToProcessor e ∈ (m.processMessage peer msg).effects →
          e = ev.toVerified ∧ ev.epoch = es.epoch) := by
  intro m es peer msg ev hes hev
  have hpe : m.processEpoch peer msg = m.gateEvent ev peer :=
    processEpoch_of_asEvent hev
  refine ⟨?_, ?_, ?_, ?_⟩
  · intro hlt
    simp [EpochManager.processMessage, hpe, gateEvent_lt hes hlt]
  · intro hgt
    simp [EpochManager.processMessage, hpe, gateEvent_gt hes hgt]
  · intro p hp heq hverify
    simp [EpochManager.processMessage, hpe, gateEvent_eq hes heq, hes,
      hverify, processEvent_normal_effects hp]
  · intro e he
    rcases Nat.lt_trichotomy ev.epoch es.epoch with hlt | heq | hgt
    · rw [(by simp [EpochManager.processMessage, hpe, gateEvent_lt hes hlt] :
        m.processMessage peer msg =
          ⟨m, [.sendEpochChangeProof peer ev.epoch es.epoch], .ok ()⟩)] at he
      simp at he
    · by_cases hv : es.verifier.verifyEvent ev = true
      · simp [EpochManager.processMessage, hpe, gateEvent_eq hes heq, hes,
          hv] at he
        have := processEvent_effects he
        simp at this
        exact ⟨this, heq⟩
      · simp [EpochManager.processMessage, hpe, gateEvent_eq hes heq, hes,
          hv] at he
    · rw [(by simp [EpochManager.processMessage, hpe, gateEvent_gt hes hgt] :
        m.processMessage peer msg =
          ⟨m, [.sendEpochRetrievalRequest peer es.epoch ev.epoch], .ok ()⟩)] at he
      simp at he

/-- Witness for C1 at epoch 5: a proposal at epoch 3 triggers the proof for
`[3, 5)`, a vote at epoch 7 triggers `EpochRetrievalRequest{5, 7}`, and an
equal-epoch proposal is forwarded to the processor. -/
theorem c1_epoch_gating_w :
    (normalEM.processMessage 7 (.proposalMsg 3 0) =
      ⟨normalEM, [.sendEpochChangeProof 7 3 5], .ok ()⟩)
    ∧ (normalEM.processMessage 7 (.voteMsg 7 0) =
        ⟨normalEM, [.sendEpochRetrievalRequest 7 5 7], .ok ()⟩)
    ∧ .forwardToProcessor (.proposalMsg 5 0) ∈
        (normalEM.processMessage 7 (.proposalMsg 5 0)).effects :=
  ⟨(c1_epoch_gating normalEM epoch5State 7 (.proposalMsg 3 0)
      (.proposalMsg 3 0) rfl rfl).1 (by decide),
    (c1_epoch_gating normalEM epoch5State 7 (.voteMsg 7 0)
      (.voteMsg 7 0) rfl rfl).2.1 (by decide),
    (c1_epoch_gating normalEM epoch5State 7 (.proposalMsg 5 0)
      (.proposalMsg 5 0) rfl rfl).2.2.1 ⟨epoch5State, okHandlers⟩ rfl rfl rfl⟩

/-- Claim C3: an inbound event message whose epoch matches the local epoch
is verified against the current `epoch_state.verifier` before the processor
runs; on verification failure `process_message` returns the invalid-message
error, the processor is never invoked (no dispatch effect — indeed no effect
at all) and the manager state is unchanged; any dispatch into the processor
implies verification succeeded. -/
theorem c3_verify_before_dispatch :
    ∀ (m : EpochManager) (es : EpochState) (peer : Nat) (msg : ConsensusMsg)
      (ev : UnverifiedEvent),
      m.epochStateOpt = some es →
      msg.asEvent = some ev →
      ev.epoch = es.epoch →
      (es.verifier.verifyEvent ev = false →
        m.processMessage peer msg = ⟨m, [], .err .invalidMessage⟩)
      ∧ (∀ e, .forwardToProcessor e ∈ (m.processMessage peer msg).effects →
          es.verifier.verifyEvent ev = true) := by
  intro m es peer msg ev hes hev heq
  have hpe : m.processEpoch peer msg = m.gateEvent ev peer :=
    processEpoch_of_asEvent hev
  constructor
  · intro hv
    simp [EpochManager.processMessage, hpe, gateEvent_eq hes heq, hes, hv]
  · intro e he
    by_cases hv : es.verifier.verifyEvent ev = true
    · exact hv
    · simp [EpochManager.processMessage, hpe, gateEvent_eq hes heq, hes,
        hv] at he

/-- Witness for C3: with a rejecting verifier, an equal-epoch proposal is
refused with `InvalidMessage`, no effects, and an unchanged manager. -/
theorem c3_verify_before_dispatch_w :
    rejectEM.processMessage 7 (.proposalMsg 5 0) =
      ⟨rejectEM, [], .err .invalidMessage⟩ :=
  (c3_verify_before_dispatch rejectEM ⟨5, rejectVerifier⟩ 7 (.proposalMsg 5 0)
    (.proposalMsg 5 0) rfl rfl rfl).1 rfl

/-- Counterexample to claim C5 as stated: delivering the same
`EpochChangeProof` (first epoch = local epoch 5, verifying successfully)
twice, with no intervening reconfiguration event, produces two `sync_to`
calls — not at most one.  The epoch manager does not change its own state in
`start_new_epoch`, so the second delivery takes the identical path. -/
theorem c5_counterexample :
    ¬ (((normalEM.processMessage 7 (.epochChangeProof sampleProof)).effects ++
        ((normalEM.processMessage 7
          (.epochChangeProof sampleProof)).state.processMessage 7
          (.epochChangeProof sampleProof)).effects).count (.syncTo ⟨6⟩) ≤ 1) := by
  decide

/-- Claim C5 as amended: each delivery of an `EpochChangeProof` whose first
epoch equals the local epoch and which verifies produces exactly one
`sync_to` call and leaves the epoch manager state unchanged, so two
deliveries with no intervening reconfiguration produce exactly two `sync_to`
calls (deduplication is the state computer's concern: the comment in
`start_new_epoch` expects `sync_to` to be a no-op on an already-committed
ledger info). -/
theorem c5_sync_to_per_delivery :
    ∀ (m : EpochManager) (es : EpochState) (peer : Nat) (proof : ProofMsg)
      (li : LedgerInfo),
      m.epochStateOpt = some es →
      proof.firstEpoch = some es.epoch →
      es.verifier.verifyProof proof = some li →
      (m.processMessage peer (.epochChangeProof proof) =
        ⟨m, [.syncTo li], .ok ()⟩)
      ∧ ((m.processMessage peer (.epochChangeProof proof)).effects ++
          ((m.processMessage peer
            (.epochChangeProof proof)).state.processMessage peer
            (.epochChangeProof proof)).effects).count (.syncTo li) = 2 := by
  intro m es peer proof li hes hfirst hverify
  have h1 : m.processMessage peer (.epochChangeProof proof) =
      ⟨m, [.syncTo li], .ok ()⟩ := by
    simp [EpochManager.processMessage, EpochManager.processEpoch, hfirst,
      epochOpt_of_epochStateOpt hes, EpochManager.startNewEpoch, hes,
      hverify, EMResult.map]
  refine ⟨h1, ?_⟩
  simp [h1, List.count_cons]

/-- Witness for the amended C5: the concrete two-delivery run of
`c5_counterexample`, one `sync_to` per delivery and an unchanged state. -/
theorem c5_sync_to_per_delivery_w :
    normalEM.processMessage 7 (.epochChangeProof sampleProof) =
      ⟨normalEM, [.syncTo ⟨6⟩], .ok ()⟩ :=
  (c5_sync_to_per_delivery normalEM epoch5State 7 sampleProof ⟨6⟩
    rfl rfl rfl).1

/-! ## Discovery lemmas -/

theorem lookupNote_updateNote_self (l : List (Nat × DNote)) (p : Nat)
    (v : DNote) : lookupNote (updateNote l p v) p = some v := by
  induction l with
  | nil => simp [updateNote, lookupNote]
  | cons hd tl ih =>
    obtain ⟨k, w⟩ := hd
    by_cases hk : k = p
    · simp [updateNote, lookupNote, hk]
    · simp [updateNote, lookupNote, hk, ih]


theorem lookupNote_updateNote_ne (l : List (Nat × DNote)) {p q : Nat}
    (v : DNote) (h : q ≠ p) :
    lookupNote (updateNote l p v) q = lookupNote l q := by
  induction l with
  | nil => simp [updateNote, lookupNote, Ne.symm h]
  | cons hd tl ih =>
    obtain ⟨k, w⟩ := hd
    by_cases hk : k = p
    · subst hk
      simp [updateNote, lookupNote, Ne.symm h]
    · simp [updateNote, lookupNote, hk, ih]

theorem updateNote_of_lookup {l : List (Nat × DNote)} {p : Nat} {v : DNote}
    (h : lookupNote l p = some v) : updateNote l p v = l := by
  induction l with
  | nil => simp [lookupNote] at h
  | cons hd tl ih =>
    obtain ⟨k, w⟩ := hd
    by_cases hk : k = p
    · simp [lookupNote, hk] at h
      simp [updateNote, hk, h]
    · simp [lookupNote, hk] at h
      simp [updateNote, hk, ih h]

theorem selfEpochOk_lookup {s : DiscoveryState} {sn : DNote}
    (hok : selfEpochOk s = true)
    (h : lookupNote s.notes s.selfId = some sn) : sn.epoch < U64MAX := by
  unfold selfEpochOk at hok
  rw [h] at hok
  simpa using hok

theorem u64max_pos : 0 < U64MAX := by norm_num [U64MAX]

theorem bumpEpoch_lt_u64 (r c : Nat) : bumpEpoch r c < U64MAX := by
  have h := u64max_pos
  unfold bumpEpoch
  omega

theorem le_bumpEpoch_of_lt {e r : Nat} (c : Nat) (h1 : e < r)
    (h2 : e < U64MAX) : e ≤ bumpEpoch r c := by
  unfold bumpEpoch
  omega

theorem bumpEpoch_gt {r c : Nat} (h : max r c + 1 < U64MAX) :
    r < bumpEpoch r c := by
  unfold bumpEpoch
  omega

/-- One inbound note never lowers the stored epoch of any peer, and never
removes a stored entry. -/
theorem handleNote_epoch_le (s : DiscoveryState) (n : DNote) (p : Nat)
    (o : DNote) (hself : selfEpochOk s = true)
    (h : lookupNote s.notes p = some o) :
    ∃ o2, lookupNote (handleNote s n).1.notes p = some o2 ∧
      o.epoch ≤ o2.epoch := by
  unfold handleNote
  by_cases hp : n.peerId = s.selfId
  · simp only [hp, if_true]
    cases hsn : lookupNote s.notes s.selfId with
    | none => exact ⟨o, h, le_refl _⟩
    | some sn =>
      by_cases hlt : sn.epoch < n.epoch
      · simp only [hlt, if_true]
        by_cases hps : p = s.selfId
        · subst hps
          rw [hsn] at h
          obtain rfl : sn = o := Option.some.inj h
          exact ⟨{ sn with epoch := bumpEpoch n.epoch s.clock },
            lookupNote_updateNote_self _ _ _,
            le_bumpEpoch_of_lt s.clock hlt (selfEpochOk_lookup hself hsn)⟩
        · exact ⟨o, by simp [lookupNote_updateNote_ne _ _ hps, h], le_refl _⟩
      · simp only [hlt, if_false]
        exact ⟨o, h, le_refl _⟩
  · simp only [hp, if_false]
    cases hst : lookupNote s.notes n.peerId with
    | none =>
      by_cases hps : p = n.peerId
      · subst hps
        rw [hst] at h
        simp at h
      · exact ⟨o, by simp [lookupNote_updateNote_ne _ _ hps, h], le_refl _⟩
    | some stored =>
      by_cases hlt : stored.epoch < n.epoch
      · simp only [hlt, if_true]
        by_cases hps : p = n.peerId
        · subst hps
          rw [hst] at h
          obtain rfl : stored = o := Option.some.inj h
          exact ⟨n, lookupNote_updateNote_self _ _ _, le_of_lt hlt⟩
        · exact ⟨o, by simp [lookupNote_updateNote_ne _ _ hps, h], le_refl _⟩
      · simp only [hlt, if_false]
        exact ⟨o, h, le_refl _⟩

/-- One inbound note preserves the self-epoch bound. -/
theorem handleNote_selfEpochOk (s : DiscoveryState) (n : DNote)
    (hself : selfEpochOk s = true) :
    selfEpochOk (handleNote s n).1 = true := by
  by_cases hp : n.peerId = s.selfId
  · cases hsn : lookupNote s.notes s.selfId with
    | none =>
      have hs1 : handleNote s n = (s, false) := by
        unfold handleNote
        simp [hp, hsn]
      rw [hs1]
      exact hself
    | some sn =>
      by_cases hlt : sn.epoch < n.epoch
      · have hs1 : (handleNote s n).1 = { s with notes := updateNote s.notes s.selfId { sn with epoch := bumpEpoch n.epoch s.clock } } := by
          unfold handleNote
          simp [hp, hsn, hlt]
        rw [hs1]
        unfold selfEpochOk
        simp [lookupNote_updateNote_self, bumpEpoch_lt_u64]
      · have hs1 : handleNote s n = (s, false) := by
          unfold handleNote
          simp [hp, hsn, hlt]
        rw [hs1]
        exact hself
  · have hqp : s.selfId ≠ n.peerId := Ne.symm hp
    cases hst : lookupNote s.notes n.peerId with
    | none =>
      have hs1 : (handleNote s n).1 = { s with notes := updateNote s.notes n.peerId n } := by
        unfold handleNote
        simp [hp, hst]
      rw [hs1]
      unfold selfEpochOk at hself ⊢
      simpa [lookupNote_updateNote_ne _ _ hqp] using hself
    | some stored =>
      by_cases hlt : stored.epoch < n.epoch
      · have hs1 : (handleNote s n).1 = { s with notes := updateNote s.notes n.peerId n } := by
          unfold handleNote
          simp [hp, hst, hlt]
        rw [hs1]
        unfold selfEpochOk at hself ⊢
        simpa [lookupNote_updateNote_ne _ _ hqp] using hself
      · have hs1 : handleNote s n = (s, false) := by
          unfold handleNote
          simp [hp, hst, hlt]
        rw [hs1]
        exact hself

/-- Over any sequence of inbound notes, a stored epoch never decreases. -/
theorem runNotes_epoch_le :
    ∀ (ns : List DNote) (s : DiscoveryState) (p : Nat) (o : DNote),
      selfEpochOk s = true → lookupNote s.notes p = some o →
      ∃ o2, lookupNote (runNotes s ns).notes p = some o2 ∧
        o.epoch ≤ o2.epoch := by
  intro ns
  induction ns with
  | nil => exact fun s p o _ h => ⟨o, h, le_refl _⟩
  | cons n tl ih =>
    intro s p o hs h
    obtain ⟨o1, h1, hle1⟩ := handleNote_epoch_le s n p o hs h
    obtain ⟨o2, h2, hle2⟩ :=
      ih (handleNote s n).1 p o1 (handleNote_selfEpochOk s n hs) h1
    exact ⟨o2, by simpa [runNotes] using h2, le_trans hle1 hle2⟩

/-- A note whose epoch is not strictly greater than the stored one is
discarded: the state is unchanged and no address update is contributed. -/
theorem handleNote_discard (s : DiscoveryState) (n o : DNote)
    (h : lookupNote s.notes n.peerId = some o) (hle : n.epoch ≤ o.epoch) :
    handleNote s n = (s, false) := by
  unfold handleNote
  by_cases hp : n.peerId = s.selfId
  · rw [hp] at h
    simp [hp, h, Nat.not_lt_of_le hle]
  · simp [hp, h, Nat.not_lt_of_le hle]

/-- Handling the same note a second time is a no-op with no address-update
contribution. -/
theorem handleNote_idem (s : DiscoveryState) (n : DNote) :
    handleNote (handleNote s n).1 n = ((handleNote s n).1, false) := by
  by_cases hp : n.peerId = s.selfId
  · cases hsn : lookupNote s.notes s.selfId with
    | none =>
      have hs1 : handleNote s n = (s, false) := by
        unfold handleNote
        simp [hp, hsn]
      rw [hs1]
      exact hs1
    | some sn =>
      by_cases hlt : sn.epoch < n.epoch
      · have hs1 : (handleNote s n).1 = { s with notes := updateNote s.notes s.selfId { sn with epoch := bumpEpoch n.epoch s.clock } } := by
          unfold handleNote
          simp [hp, hsn, hlt]
        have hl2 : lookupNote (updateNote s.notes s.selfId { sn with epoch := bumpEpoch n.epoch s.clock }) s.selfId = some { sn with epoch := bumpEpoch n.epoch s.clock } :=
          lookupNote_updateNote_self _ _ _
        rw [hs1]
        unfold handleNote
        by_cases hlt2 : bumpEpoch n.epoch s.clock < n.epoch
        · simp [hp, hl2, hlt2, updateNote_of_lookup hl2]
        · simp [hp, hl2, hlt2]
      · have hs1 : handleNote s n = (s, false) := by
          unfold handleNote
          simp [hp, hsn, hlt]
        rw [hs1]
        exact hs1
  · cases hst : lookupNote s.notes n.peerId with
    | none =>
      have hs1 : (handleNote s n).1 = { s with notes := updateNote s.notes n.peerId n } := by
        unfold handleNote
        simp [hp, hst]
      rw [hs1]
      unfold handleNote
      simp [hp, lookupNote_updateNote_self]
    | some stored =>
      by_cases hlt : stored.epoch < n.epoch
      · have hs1 : (handleNote s n).1 = { s with notes := updateNote s.notes n.peerId n } := by
          unfold handleNote
          simp [hp, hst, hlt]
        rw [hs1]
        unfold handleNote
        simp [hp, lookupNote_updateNote_self]
      · have hs1 : handleNote s n = (s, false) := by
          unfold handleNote
          simp [hp, hst, hlt]
        rw [hs1]
        exact hs1

/-- Claim C8: the epoch of the Note that Discovery stores for a peer never
decreases over any sequence of received notes; a received note replaces the
stored one only when its epoch is strictly greater (or the peer is new) —
otherwise the state is untouched; and receiving the same well-formed note a
second time is a no-op with no address update emitted for it.  The Discovery
logic is modelled from the spec (§4.6), as its implementation is not part of
the source slice. -/
theorem c8_stored_epoch_monotone :
    (∀ (s : DiscoveryState) (ns : List DNote) (p : Nat) (o : DNote),
        selfEpochOk s = true → lookupNote s.notes p = some o →
        ∃ o2, lookupNote (runNotes s ns).notes p = some o2 ∧
          o.epoch ≤ o2.epoch)
    ∧ (∀ (s : DiscoveryState) (n o : DNote),
        lookupNote s.notes n.peerId = some o → n.epoch ≤ o.epoch →
        handleNote s n = (s, false))
    ∧ (∀ (s : DiscoveryState) (n : DNote),
        handleMsg (handleMsg s [n]).1 [n] = ((handleMsg s [n]).1, false)) := by
  refine ⟨fun s ns => runNotes_epoch_le ns s, handleNote_discard, ?_⟩
  intro s n
  simp [handleMsg, handleNote_idem]

/-- Witness for C8: starting from `ds0`, receiving peer 1's note keeps the
self epoch 5 intact; an old self-note (epoch 3) is discarded unchanged; and
the second delivery of peer 1's note is a no-op with no update emitted. -/
theorem c8_stored_epoch_monotone_w :
    (∃ o2, lookupNote (runNotes ds0 [⟨1, [8080], 0, 100⟩]).notes 0 =
        some o2 ∧ 5 ≤ o2.epoch)
    ∧ handleNote ds0 ⟨0, [9091], 0, 3⟩ = (ds0, false)
    ∧ handleMsg (handleMsg ds0 [⟨1, [8080], 0, 100⟩]).1
        [⟨1, [8080], 0, 100⟩] =
        ((handleMsg ds0 [⟨1, [8080], 0, 100⟩]).1, false) :=
  ⟨c8_stored_epoch_monotone.1 ds0 [⟨1, [8080], 0, 100⟩] 0 ⟨0, [9090], 0, 5⟩
      (by decide) rfl,
    c8_stored_epoch_monotone.2.1 ds0 ⟨0, [9091], 0, 3⟩ ⟨0, [9090], 0, 5⟩
      rfl (by decide),
    c8_stored_epoch_monotone.2.2 ds0 ⟨1, [8080], 0, 100⟩⟩

/-- Counterexample to claim C9 as stated: with the stored self-note at epoch
5 and clock 10, receiving a self-note with epoch `u64::MAX - 1` (which is
strictly greater than 5 and is not `u64::MAX`) saturates the stored
self-epoch at `u64::MAX - 1` — not `max(received, clock) + 1`, and not
strictly greater than the received epoch.  Under the spec's requirement that
the self-epoch stay below `u64::MAX`, no policy can exceed a received
`u64::MAX - 1`. -/
theorem c9_counterexample :
    (handleNote ds0 ⟨0, [9091], 0, U64MAX - 1⟩).1 =
      ⟨0, [(0, ⟨0, [9090], 0, U64MAX - 1⟩)], 10⟩
    ∧ (5 : Nat) < U64MAX - 1 ∧ U64MAX - 1 ≠ U64MAX
    ∧ ¬ (U64MAX - 1 < U64MAX - 1) := by
  decide

/-- Claim C9 as amended: a self-note with an epoch strictly above the stored
self-epoch bumps the stored self-note to epoch
`min(max(received, wall_clock) + 1, u64::MAX - 1)` while retaining the
locally configured addresses; the new epoch is always strictly below
`u64::MAX`, and it is strictly greater than the received epoch whenever
`max(received, wall_clock) + 1` fits below `u64::MAX` (at the top edge it
saturates at `u64::MAX - 1`).  Modelled from the spec (§4.6 step 2, §8 S3). -/
theorem c9_self_note_bump :
    ∀ (s : DiscoveryState) (n sn : DNote),
      n.peerId = s.selfId →
      lookupNote s.notes s.selfId = some sn →
      sn.epoch < n.epoch →
      ∃ sn2, outboundSelfNote (handleNote s n).1 = some sn2 ∧
        sn2.addrs = sn.addrs ∧ sn2.dnsName = sn.dnsName ∧
        sn2.epoch = bumpEpoch n.epoch s.clock ∧
        sn2.epoch < U64MAX ∧
        (max n.epoch s.clock + 1 < U64MAX → n.epoch < sn2.epoch) := by
  intro s n sn hp hsn hlt
  have hs1 : (handleNote s n).1 = { s with notes := updateNote s.notes s.selfId { sn with epoch := bumpEpoch n.epoch s.clock } } := by
    unfold handleNote
    simp [hp, hsn, hlt]
  refine ⟨{ sn with epoch := bumpEpoch n.epoch s.clock }, ?_, rfl, rfl, rfl,
    bumpEpoch_lt_u64 _ _, fun h => bumpEpoch_gt h⟩
  rw [hs1]
  unfold outboundSelfNote
  exact lookupNote_updateNote_self _ _ _

/-- Witness for the amended C9: receiving the old self-note at epoch 100
(clock 10) bumps the stored self-note to epoch 101, keeping address 9090. -/
theorem c9_self_note_bump_w :
    ∃ sn2, outboundSelfNote (handleNote ds0 ⟨0, [9091], 0, 100⟩).1 =
        some sn2 ∧
      sn2.addrs = [9090] ∧ sn2.dnsName = 0 ∧
      sn2.epoch = bumpEpoch 100 10 ∧ sn2.epoch < U64MAX ∧
      (max 100 10 + 1 < U64MAX → 100 < sn2.epoch) :=
  c9_self_note_bump ds0 ⟨0, [9091], 0, 100⟩ ⟨0, [9090], 0, 5⟩ rfl rfl
    (by decide)

end Libra
